import Mathlib

/-!
Verification development for the Signals backend core: the attachment
access-decision engine, the contact-detail disclosure rules, the
reopened-notification context derivation, and the logging configuration
builder. Definitions are shallow embeddings of the repository code; where
the deciding implementation is absent from the sampled sources (only its
tests are present) the definition is modelled from the specification and
says so in its doc comment.
-/

namespace Signals

/-- Permission flags grantable to a principal, as enumerated by the spec
data model and referenced by codename in the tests. -/
inductive SignalPermission where
  | delete_attachment_of_other_user
  | delete_attachment_of_normal_signal
  | delete_attachment_of_parent_signal
  | delete_attachment_of_child_signal
  | sia_can_view_contact_details
deriving DecidableEq, Repr

/-- Reporter contact details attached to a record; both fields are nullable. -/
structure Reporter where
  email : Option String
  phone : Option String
deriving DecidableEq, Repr

/-- Record (Signal) as needed by the access and disclosure engines: the
departments owning its category, its structural relations, its reporter. -/
structure SignalRecord where
  categoryDepartments : List Nat
  hasParent : Bool
  hasChildren : Bool
  reporter : Reporter
deriving DecidableEq, Repr

/-- Attachment: belongs to one record, has a nullable creator identity
(null means anonymous / reporter-submitted). -/
structure Attachment where
  record : SignalRecord
  created_by : Option String
deriving DecidableEq, Repr

/-- Principal (User): identity (email), assigned departments, granted
permission flags. -/
structure Principal where
  identity : String
  departments : List Nat
  permissions : List SignalPermission
deriving DecidableEq, Repr

/-- Modelled from the spec: the implementation of department-scoped view
access is not among the sampled sources (only its tests are). The spec says
can_view is true iff the principal's departments intersect the record's
category departments. -/
def can_view (p : Principal) (r : SignalRecord) : Bool :=
  p.departments.any fun d => r.categoryDepartments.contains d

/-- Modelled from the spec: view access for an attachment delegates to view
access for its owning record. -/
def can_view_attachment (p : Principal) (a : Attachment) : Bool :=
  can_view p a.record

/-- Structural kind of a record: normal (no parent, no children), parent
(has at least one child), child (has a parent). -/
inductive StructuralKind where
  | normal
  | parent
  | child
deriving DecidableEq, Repr

/-- Modelled from the spec: classification checks has_children before
has_parent, so the parent check takes precedence when a record is both. -/
def classify (r : SignalRecord) : StructuralKind :=
  if r.hasChildren then .parent
  else if r.hasParent then .child
  else .normal

/-- Modelled from the spec: the structural-kind-specific delete permission
required to delete an attachment of a record of that kind. -/
def requiredPermission : StructuralKind → SignalPermission
  | .normal => .delete_attachment_of_normal_signal
  | .parent => .delete_attachment_of_parent_signal
  | .child => .delete_attachment_of_child_signal

/-- Codename string of each permission flag, as used in permission checks
and surfaced in deny messages. -/
def permissionName : SignalPermission → String
  | .delete_attachment_of_other_user => "delete_attachment_of_other_user"
  | .delete_attachment_of_normal_signal => "delete_attachment_of_normal_signal"
  | .delete_attachment_of_parent_signal => "delete_attachment_of_parent_signal"
  | .delete_attachment_of_child_signal => "delete_attachment_of_child_signal"
  | .sia_can_view_contact_details => "sia_can_view_contact_details"

/-- Typed deny outcomes of the deletion decision, per the spec error
taxonomy: department mismatch, missing structural-kind permission (which
one is carried), and ownership failure. -/
inductive DenyReason where
  | structuralDeny
  | permissionDeny (missing : SignalPermission)
  | ownershipDeny
deriving DecidableEq, Repr

/-- Modelled from the spec: the user-facing detail text of each deny. The
spec fixes only that a permission deny names the missing permission
codename verbatim; the surrounding words are illustrative. -/
def deny_detail : DenyReason → String
  | .structuralDeny => "You do not have department access to this signal."
  | .permissionDeny missing =>
      "You do not have permission " ++ permissionName missing ++ " required to delete this attachment."
  | .ownershipDeny => "You cannot delete an attachment uploaded by another user."

/-- Modelled from the spec: the deletion decision, absent from the sampled
sources (only its tests are present). Gates in order: department scoping,
structural-kind permission, ownership-or-override-or-anonymous. -/
def can_delete_attachment (p : Principal) (a : Attachment) : Except DenyReason Unit :=
  if ¬ can_view_attachment p a then .error .structuralDeny
  else
    let kind := classify a.record
    let perm := requiredPermission kind
    if ¬ p.permissions.contains perm then .error (.permissionDeny perm)
    else if a.created_by = some p.identity
         ∨ p.permissions.contains .delete_attachment_of_other_user
         ∨ a.created_by = none then .ok ()
    else .error .ownershipDeny

/-- Modelled from the spec: the HTTP boundary maps a deletion allow to 204
with empty body and a deny to 403 with the deny detail text. -/
def deletionHttpResponse : Except DenyReason Unit → Nat × Option String
  | .ok _ => (204, none)
  | .error r => (403, some (deny_detail r))

/-- Modelled from the spec: permission check on a possibly-absent
principal; an absent principal holds no permission. -/
def has_permission (p : Option Principal) (perm : SignalPermission) : Bool :=
  match p with
  | some u => u.permissions.contains perm
  | none => false

/-- Modelled from the spec: masking of a single contact field — a non-null
value becomes the fixed token, a null value stays null. -/
def mask_value : Option String → Option String
  | none => none
  | some _ => some "*****"

/-- Modelled from the spec: contact-detail disclosure. Channel override
returns actual values unconditionally; a principal with
sia_can_view_contact_details gets actual values; otherwise each non-null
field is masked and null fields pass through as null. -/
def get_contact_details (record : SignalRecord) (user : Option Principal)
    (channel_override : Bool) : Option String × Option String :=
  if channel_override then (record.reporter.email, record.reporter.phone)
  else if has_permission user .sia_can_view_contact_details then
    (record.reporter.email, record.reporter.phone)
  else (mask_value record.reporter.email, mask_value record.reporter.phone)

/-- Value occurring in a template-context dictionary, as returned by
get_additional_context: null, a boolean, a string, or a list of strings. -/
inductive PyValue where
  | null
  | bool (b : Bool)
  | str (s : String)
  | strList (l : List String)
deriving DecidableEq, Repr

/-- Lift an optional value into a context value with null for absence. -/
def optVal (f : α → PyValue) : Option α → PyValue
  | none => .null
  | some x => f x

/-- Feedback entry of a signal, with a nullable submission timestamp and
the fields read by the reopened-notification action. -/
structure Feedback where
  submitted_at : Option Nat
  is_satisfied : Option Bool
  text : Option String
  text_extra : Option String
  text_list : Option (List String)
deriving DecidableEq, Repr

/-- Signal as seen by SignalReopenedAction: its related feedback entries. -/
structure Signal where
  feedback : List Feedback
deriving DecidableEq, Repr

/-- Comparison used by order_by on submitted_at; it is only applied to
entries whose submitted_at is non-null (the filtered queryset). -/
def feedbackLe (a b : Feedback) : Bool :=
  a.submitted_at.getD 0 ≤ b.submitted_at.getD 0

/-- Embedding of SignalReopenedAction.get_additional_context: filter
feedback to entries with a non-null submitted_at; if any remain, take the
last of the ascending order_by submitted_at (the most recently submitted)
and expose its fields, else all four derived fields are null. The inner
none branch mirrors queryset last() returning None and is unreachable for
a non-empty filtered queryset. -/
def get_additional_context (signal : Signal) : List (String × PyValue) :=
  let feedback_qs := signal.feedback.filter fun f => f.submitted_at.isSome
  let feedback_received := !feedback_qs.isEmpty
  let fields :=
    if feedback_received then
      match (feedback_qs.mergeSort feedbackLe).getLast? with
      | some last_received_feedback =>
          (optVal PyValue.bool last_received_feedback.is_satisfied,
           optVal PyValue.str last_received_feedback.text,
           optVal PyValue.str last_received_feedback.text_extra,
           optVal PyValue.strList last_received_feedback.text_list)
      | none => (.null, .null, .null, .null)
    else (.null, .null, .null, .null)
  [("feedback_received", .bool feedback_received),
   ("feedback_is_satisfied", fields.1),
   ("feedback_text", fields.2.1),
   ("feedback_text_extra", fields.2.2.1),
   ("feedback_text_list", fields.2.2.2)]

end Signals

namespace Logs

/-- Logging level passed to get_configuration, a string or an int. -/
inductive LogLevel where
  | str (s : String)
  | int (n : Nat)
deriving DecidableEq, Repr

/-- Configuration of one handler: its class path and, for the azure
handler, the connection string. -/
structure HandlerConfig where
  cls : String
  connection_string : Option String
deriving DecidableEq, Repr

/-- Configuration of one logger: its level and its handler names. -/
structure LoggerConfig where
  level : Option LogLevel
  handlers : List String
deriving DecidableEq, Repr

/-- Dict-config object: handlers and loggers keyed by name. -/
structure LogConfig where
  handlers : List (String × HandlerConfig)
  loggers : List (String × LoggerConfig)
deriving DecidableEq, Repr

/-- Set a key in an association list, replacing an existing binding or
appending a new one; models dict item assignment and one-key update. -/
def assocSet : List (String × β) → String → β → List (String × β)
  | [], k, v => [(k, v)]
  | kv :: rest, k, v => if kv.1 = k then (k, v) :: rest else kv :: assocSet rest k v

/-- Modify the value at a key if present; models in-place mutation of an
existing dict entry. -/
def assocModify (l : List (String × β)) (k : String) (f : β → β) : List (String × β) :=
  l.map fun kv => if kv.1 = k then (kv.1, f kv.2) else kv

/-- Deep copy of the config; Lean values are immutable, so a deep copy is
the value itself, and later updates never reach the original. -/
def deepcopy (c : LogConfig) : LogConfig := c

/-- Embedding of add_azure: with no connection string it returns
unchanged; otherwise it registers the azure handler and points the django
and django.db.backends loggers at azure plus colorless. -/
def add_azure (connection_string : Option String) (c : LogConfig) : LogConfig :=
  match connection_string with
  | none => c
  | some cs =>
    let azureHandler : HandlerConfig :=
      { cls := "opencensus.ext.azure.log_exporter.AzureLogHandler",
        connection_string := some cs }
    let c1 := { c with handlers := assocSet c.handlers "azure" azureHandler }
    let c2 := { c1 with
      loggers := assocModify c1.loggers "django"
        (fun lg => { lg with handlers := ["azure", "colorless"] }) }
    { c2 with
      loggers := assocModify c2.loggers "django.db.backends"
        (fun lg => { lg with handlers := ["azure", "colorless"] }) }

/-- Truthiness of the AZURE_APPLICATION_INSIGHTS_ENABLED env value; getenv
yields a string or None, and the code compares against True, both string
spellings of True, and the string 1. -/
def azureFlagEnabled (v : Option String) : Bool :=
  v = some "True" || v = some "true" || v = some "1"

/-- Embedding of get_configuration. The base config and the two env
variables are passed explicitly. The result pairs the returned config with
the state of BASE_LOGGING after the call: the code deep-copies before
mutating, so the base comes back unchanged. The local _handlers list gets
azure appended when the flag is enabled but is never consulted for the
per-app loggers, which always receive the literal colorize list. -/
def get_configuration (BASE_LOGGING : LogConfig) (azureEnv : Option String)
    (connection_string : Option String) (local_apps : List String)
    (logging_level : LogLevel) : LogConfig × LogConfig :=
  let config0 := deepcopy BASE_LOGGING
  let pair :=
    if azureFlagEnabled azureEnv then
      (add_azure connection_string config0, ["colorize", "azure"])
    else (config0, ["colorize"])
  let _handlers : List String := pair.2
  let appEntry : LoggerConfig := { level := some logging_level, handlers := ["colorize"] }
  let withApps := { pair.1 with
    loggers := local_apps.foldl (fun lgs app_name => assocSet lgs app_name appEntry)
      pair.1.loggers }
  (withApps, BASE_LOGGING)

end Logs

namespace Signals

/-- Deletion succeeds exactly when all three gate conditions hold: this is
the case analysis of the decision function. -/
lemma can_delete_ok_iff (p : Principal) (a : Attachment) :
    can_delete_attachment p a = .ok () ↔
      can_view_attachment p a = true ∧
      p.permissions.contains (requiredPermission (classify a.record)) = true ∧
      (a.created_by = some p.identity
        ∨ p.permissions.contains .delete_attachment_of_other_user = true
        ∨ a.created_by = none) := by
  simp only [can_delete_attachment]
  split_ifs with h1 h2 h3 <;> simp_all

/-- Transitivity of the submitted_at comparison. -/
lemma feedbackLe_trans : ∀ a b c : Feedback,
    feedbackLe a b = true → feedbackLe b c = true → feedbackLe a c = true := by
  intro a b c
  simp only [feedbackLe, decide_eq_true_eq]
  omega

/-- Totality of the submitted_at comparison. -/
lemma feedbackLe_total : ∀ a b : Feedback, (feedbackLe a b || feedbackLe b a) = true := by
  intro a b
  simp only [feedbackLe, Bool.or_eq_true, decide_eq_true_eq]
  omega

/-- The last element of a list sorted by feedbackLe bounds every element. -/
lemma getLast_is_max {l : List Feedback} {m : Feedback}
    (hs : List.Pairwise (fun a b => feedbackLe a b = true) l)
    (hl : l.getLast? = some m) : ∀ g ∈ l, feedbackLe g m = true := by
  have hsplit := List.dropLast_append_getLast? m hl
  intro g hg
  rw [← hsplit] at hs hg
  rcases List.mem_append.mp hg with h | h
  · exact (List.pairwise_append.mp hs).2.2 g h m (by simp)
  · simp only [List.mem_singleton] at h
    subst h
    simp [feedbackLe]

/-- Shape of the reopened context when no feedback entry was submitted. -/
lemma gac_no_feedback (s : Signal)
    (h : s.feedback.filter (fun f => f.submitted_at.isSome) = []) :
    get_additional_context s =
      [("feedback_received", .bool false), ("feedback_is_satisfied", .null),
       ("feedback_text", .null), ("feedback_text_extra", .null),
       ("feedback_text_list", .null)] := by
  simp [get_additional_context, h]

/-- Shape of the reopened context when the sorted submitted queryset has a
last element. -/
lemma gac_with_feedback (s : Signal) (lf : Feedback)
    (h : ((s.feedback.filter fun f => f.submitted_at.isSome).mergeSort feedbackLe).getLast?
      = some lf) :
    get_additional_context s =
      [("feedback_received", .bool true),
       ("feedback_is_satisfied", optVal PyValue.bool lf.is_satisfied),
       ("feedback_text", optVal PyValue.str lf.text),
       ("feedback_text_extra", optVal PyValue.str lf.text_extra),
       ("feedback_text_list", optVal PyValue.strList lf.text_list)] := by
  have hne : (s.feedback.filter fun f => f.submitted_at.isSome) ≠ [] := by
    intro h0
    rw [h0] at h
    simp [List.mergeSort] at h
  have hempty : (s.feedback.filter fun f => f.submitted_at.isSome).isEmpty = false :=
    List.isEmpty_eq_false.mpr hne
  simp [get_additional_context, hempty, h]

end Signals

namespace Logs

/-- Looking up the key just set yields the new value. -/
lemma lookup_assocSet_self (l : List (String × β)) (k : String) (v : β) :
    List.lookup k (assocSet l k v) = some v := by
  induction l with
  | nil => simp [assocSet, List.lookup]
  | cons kv rest ih =>
    by_cases h : kv.1 = k
    · simp [assocSet, h, List.lookup]
    · have h2 : (k == kv.1) = false := beq_eq_false_iff_ne.mpr (Ne.symm h)
      simp [assocSet, h, List.lookup, h2, ih]

/-- Setting one key leaves lookups of other keys unchanged. -/
lemma lookup_assocSet_ne (l : List (String × β)) (k k0 : String) (v : β) (h : k0 ≠ k) :
    List.lookup k0 (assocSet l k v) = List.lookup k0 l := by
  induction l with
  | nil => simp [assocSet, List.lookup, beq_eq_false_iff_ne.mpr h]
  | cons kv rest ih =>
    by_cases hk : kv.1 = k
    · subst hk
      simp [assocSet, List.lookup, beq_eq_false_iff_ne.mpr h]
    · simp only [assocSet, hk, if_false]
      by_cases hk0 : k0 = kv.1
      · simp [List.lookup, hk0]
      · simp [List.lookup, beq_eq_false_iff_ne.mpr hk0, ih]

/-- Folding assocSet over keys not containing k leaves lookup of k alone. -/
lemma lookup_foldl_assocSet_not_mem (apps : List String) (l : List (String × β)) (v : β)
    (k : String) (h : k ∉ apps) :
    List.lookup k (apps.foldl (fun lgs a => assocSet lgs a v) l) = List.lookup k l := by
  induction apps generalizing l with
  | nil => rfl
  | cons a as ih =>
    have hne : k ≠ a := fun he => h (he ▸ List.mem_cons_self a as)
    have hnotin : k ∉ as := fun hin => h (List.mem_cons_of_mem a hin)
    simp only [List.foldl_cons]
    rw [ih (assocSet l a v) hnotin, lookup_assocSet_ne l a k v hne]

/-- Folding assocSet with a constant value over a key list makes every
listed key look up to that value. -/
lemma lookup_foldl_assocSet_mem (apps : List String) (l : List (String × β)) (v : β)
    (k : String) (h : k ∈ apps) :
    List.lookup k (apps.foldl (fun lgs a => assocSet lgs a v) l) = some v := by
  induction apps generalizing l with
  | nil => simp at h
  | cons a as ih =>
    simp only [List.foldl_cons]
    by_cases hin : k ∈ as
    · exact ih (assocSet l a v) hin
    · have hka : k = a := by
        rcases List.mem_cons.mp h with he | he
        · exact he
        · exact absurd he hin
      subst hka
      rw [lookup_foldl_assocSet_not_mem as (assocSet l k v) v k hin,
        lookup_assocSet_self l k v]

end Logs

namespace Signals

/-- Claim C1: can_delete_attachment returns allow if and only if the
department intersection, the structural-kind delete permission, and the
ownership-or-override-or-anonymous condition all hold simultaneously; so
negating any single one of these from an otherwise fully granted state
flips the outcome to deny. -/
theorem claim1_can_delete_allow_iff (p : Principal) (a : Attachment) :
    can_delete_attachment p a = .ok () ↔
      can_view_attachment p a = true ∧
      p.permissions.contains (requiredPermission (classify a.record)) = true ∧
      (a.created_by = some p.identity
        ∨ p.permissions.contains .delete_attachment_of_other_user = true
        ∨ a.created_by = none) :=
  can_delete_ok_iff p a

/-- Sample principal with every permission for claim 1. -/
def sample1P : Principal :=
  ⟨"user@example.com", [1],
    [.delete_attachment_of_other_user, .delete_attachment_of_normal_signal,
     .delete_attachment_of_parent_signal, .delete_attachment_of_child_signal]⟩

/-- Sample attachment on a normal record in department 1 for claim 1. -/
def sample1A : Attachment := ⟨⟨[1], false, false, ⟨none, none⟩⟩, some "other@example.com"⟩

/-- Witness for claim 1 at a concrete fully granted state. -/
theorem claim1_witness :
    can_delete_attachment sample1P sample1A = .ok () :=
  (claim1_can_delete_allow_iff sample1P sample1A).mpr (by decide)

/-- Claim C2: if the departments of a principal do not intersect the
category departments of a record, then can_view is false and both viewing
and deleting any attachment of that record is denied, no matter which
permission flags the principal holds. -/
theorem claim2_no_department_access_denies_all (p : Principal) (r : SignalRecord)
    (h : ∀ d ∈ p.departments, d ∉ r.categoryDepartments) :
    can_view p r = false ∧
    ∀ a : Attachment, a.record = r →
      can_view_attachment p a = false ∧
      can_delete_attachment p a = .error .structuralDeny := by
  have hv : can_view p r = false := by
    simp only [can_view, List.any_eq_false]
    simpa using h
  refine ⟨hv, ?_⟩
  intro a ha
  have hva : can_view_attachment p a = false := by
    simp [can_view_attachment, ha, hv]
  exact ⟨hva, by simp [can_delete_attachment, hva]⟩

/-- Sample principal with every permission but the wrong department. -/
def sample2P : Principal :=
  ⟨"user@example.com", [1],
    [.delete_attachment_of_other_user, .delete_attachment_of_normal_signal,
     .delete_attachment_of_parent_signal, .delete_attachment_of_child_signal,
     .sia_can_view_contact_details]⟩

/-- Sample record owned by department 2 only. -/
def sample2R : SignalRecord := ⟨[2], false, false, ⟨none, none⟩⟩

/-- Sample attachment of the department 2 record. -/
def sample2A : Attachment := ⟨sample2R, none⟩

/-- Witness for claim 2 at a concrete department mismatch. -/
theorem claim2_witness :
    can_delete_attachment sample2P sample2A = .error .structuralDeny :=
  ((claim2_no_department_access_denies_all sample2P sample2R (by decide)).2
    sample2A rfl).2

/-- Claim C3: with department access and the structural-kind delete
permission, an attachment whose created_by is null may be deleted; the
override permission is not needed, a null creator satisfies the ownership
gate unconditionally. -/
theorem claim3_null_creator_bypasses_ownership (p : Principal) (a : Attachment)
    (h1 : can_view_attachment p a = true)
    (h2 : p.permissions.contains (requiredPermission (classify a.record)) = true)
    (h3 : a.created_by = none) :
    can_delete_attachment p a = .ok () :=
  (can_delete_ok_iff p a).mpr ⟨h1, h2, Or.inr (Or.inr h3)⟩

/-- Sample principal holding only the normal-signal delete permission. -/
def sample3P : Principal := ⟨"me@example.com", [1], [.delete_attachment_of_normal_signal]⟩

/-- Sample anonymous attachment on a normal record in department 1. -/
def sample3A : Attachment := ⟨⟨[1], false, false, ⟨none, none⟩⟩, none⟩

/-- Witness for claim 3: the principal lacks the override permission and
still deletes the anonymous attachment. -/
theorem claim3_witness :
    can_delete_attachment sample3P sample3A = .ok () :=
  claim3_null_creator_bypasses_ownership sample3P sample3A (by decide) (by decide) rfl

/-- Claim C4: for a principal without sia_can_view_contact_details and no
channel override, get_contact_details returns the masking token for a
field exactly when its underlying value is non-null, and null exactly when
the underlying value is null. -/
theorem claim4_masking_respects_null_fields (r : SignalRecord) (p : Principal)
    (h : p.permissions.contains .sia_can_view_contact_details = false) :
    ((get_contact_details r (some p) false).1 = some "*****" ↔ r.reporter.email ≠ none) ∧
    ((get_contact_details r (some p) false).1 = none ↔ r.reporter.email = none) ∧
    ((get_contact_details r (some p) false).2 = some "*****" ↔ r.reporter.phone ≠ none) ∧
    ((get_contact_details r (some p) false).2 = none ↔ r.reporter.phone = none) := by
  simp only [get_contact_details, has_permission, h]
  cases he : r.reporter.email <;> cases hp : r.reporter.phone <;> simp [mask_value, he, hp]

/-- Sample record with an email but no phone. -/
def sample4R : SignalRecord := ⟨[1], false, false, ⟨some "foo@bar.com", none⟩⟩

/-- Sample principal without the contact-details permission. -/
def sample4P : Principal := ⟨"user@example.com", [1], []⟩

/-- Witness for claim 4: the present email is masked and the absent phone
stays null. -/
theorem claim4_witness :
    (get_contact_details sample4R (some sample4P) false).1 = some "*****" ∧
    (get_contact_details sample4R (some sample4P) false).2 = none :=
  ⟨(claim4_masking_respects_null_fields sample4R sample4P (by decide)).1.mpr (by decide),
   (claim4_masking_respects_null_fields sample4R sample4P (by decide)).2.2.2.mpr rfl⟩

/-- Claim C5: with channel override true, get_contact_details returns the
actual reporter email and phone for every principal, including the absent
principal, whatever permissions are held. -/
theorem claim5_channel_override_unredacted (r : SignalRecord) (user : Option Principal) :
    get_contact_details r user true = (r.reporter.email, r.reporter.phone) := rfl

/-- Witness for claim 5 at a concrete record and absent principal. -/
theorem claim5_witness :
    get_contact_details ⟨[1], false, false, ⟨some "foo@bar.com", some "0612345678"⟩⟩ none true
      = (some "foo@bar.com", some "0612345678") :=
  claim5_channel_override_unredacted ⟨[1], false, false, ⟨some "foo@bar.com", some "0612345678"⟩⟩ none

/-- Claim C6: a record that has children and also has a parent is
classified as parent, only the parent-signal delete permission is
consulted for it, and the presence or absence of the child-signal delete
permission never changes the deletion outcome on its attachments. -/
theorem claim6_parent_precedence (r : SignalRecord)
    (h1 : r.hasChildren = true) (h2 : r.hasParent = true) :
    classify r = .parent ∧
    requiredPermission (classify r) = .delete_attachment_of_parent_signal ∧
    ∀ (p : Principal) (a : Attachment), a.record = r →
      can_delete_attachment
        { p with permissions :=
            p.permissions.filter fun q => q ≠ .delete_attachment_of_child_signal } a
      = can_delete_attachment p a := by
  have hcl : classify r = .parent := by simp [classify, h1]
  refine ⟨hcl, by rw [hcl]; rfl, ?_⟩
  intro p a ha
  simp only [can_delete_attachment, can_view_attachment, can_view, ha, hcl, requiredPermission]
  simp [List.mem_filter]

/-- Sample record that is both parent and child. -/
def sample6R : SignalRecord := ⟨[1], true, true, ⟨none, none⟩⟩

/-- Witness for claim 6: the both-parent-and-child record classifies as
parent. -/
theorem claim6_witness : classify sample6R = .parent :=
  (claim6_parent_precedence sample6R (by decide) (by decide)).1

/-- Claim C7: when deletion is denied because the structural-kind delete
permission is missing while department access is granted, the decision is
a permission deny whose HTTP 403 detail string contains the exact
identifier of the missing permission, one of the three structural
codenames. -/
theorem claim7_permission_deny_names_permission (p : Principal) (a : Attachment)
    (h1 : can_view_attachment p a = true)
    (h2 : p.permissions.contains (requiredPermission (classify a.record)) = false) :
    ∃ s : String,
      can_delete_attachment p a
        = .error (.permissionDeny (requiredPermission (classify a.record))) ∧
      deletionHttpResponse (can_delete_attachment p a) = (403, some s) ∧
      (∃ pre post, s = pre ++ permissionName (requiredPermission (classify a.record)) ++ post) ∧
      (permissionName (requiredPermission (classify a.record)) = "delete_attachment_of_normal_signal"
        ∨ permissionName (requiredPermission (classify a.record)) = "delete_attachment_of_parent_signal"
        ∨ permissionName (requiredPermission (classify a.record)) = "delete_attachment_of_child_signal") := by
  have h2x : requiredPermission (classify a.record) ∉ p.permissions := by
    simpa using h2
  have hd : can_delete_attachment p a
      = .error (.permissionDeny (requiredPermission (classify a.record))) := by
    simp [can_delete_attachment, h1, h2x]
  refine ⟨deny_detail (.permissionDeny (requiredPermission (classify a.record))), hd, ?_, ?_, ?_⟩
  · rw [hd]
    rfl
  · exact ⟨"You do not have permission ", " required to delete this attachment.", rfl⟩
  · cases hc : classify a.record <;> simp [requiredPermission, permissionName]

/-- Sample principal with department access but no delete permissions. -/
def sample7P : Principal := ⟨"user@example.com", [1], []⟩

/-- Sample attachment of a child record in department 1. -/
def sample7A : Attachment := ⟨⟨[1], true, false, ⟨none, none⟩⟩, none⟩

/-- Witness for claim 7: the deny on the child record names the
child-signal permission. -/
theorem claim7_witness :
    can_delete_attachment sample7P sample7A
      = .error (.permissionDeny .delete_attachment_of_child_signal) := by
  obtain ⟨s, hd, _, _, _⟩ :=
    claim7_permission_deny_names_permission sample7P sample7A (by decide) (by decide)
  exact hd

/-- Claim C8: the reopened-notification context exposes, when some
feedback has a non-null submitted_at, the satisfaction flag and free-text
fields of a feedback entry whose submitted_at is maximal among all
submitted entries; and when no feedback has a non-null submitted_at, all
four derived fields are null, not empty string and not false. -/
theorem claim8_reopened_context_latest_feedback (s : Signal) :
    ((∀ f ∈ s.feedback, f.submitted_at = none) →
      get_additional_context s =
        [("feedback_received", .bool false), ("feedback_is_satisfied", .null),
         ("feedback_text", .null), ("feedback_text_extra", .null),
         ("feedback_text_list", .null)]) ∧
    ((∃ f ∈ s.feedback, f.submitted_at ≠ none) →
      ∃ lf t, lf ∈ s.feedback ∧ lf.submitted_at = some t ∧
        (∀ g ∈ s.feedback, ∀ u, g.submitted_at = some u → u ≤ t) ∧
        get_additional_context s =
          [("feedback_received", .bool true),
           ("feedback_is_satisfied", optVal PyValue.bool lf.is_satisfied),
           ("feedback_text", optVal PyValue.str lf.text),
           ("feedback_text_extra", optVal PyValue.str lf.text_extra),
           ("feedback_text_list", optVal PyValue.strList lf.text_list)]) := by
  constructor
  · intro h
    exact gac_no_feedback s (List.filter_eq_nil_iff.mpr fun f hf => by simp [h f hf])
  · rintro ⟨f0, hf0mem, hf0⟩
    have hf0fqs : f0 ∈ s.feedback.filter fun f => f.submitted_at.isSome := by
      simp [List.mem_filter, hf0mem, Option.isSome_iff_ne_none, hf0]
    have hfqs_ne : (s.feedback.filter fun f => f.submitted_at.isSome) ≠ [] := by
      intro h0
      rw [h0] at hf0fqs
      simp at hf0fqs
    have hms_ne :
        ((s.feedback.filter fun f => f.submitted_at.isSome).mergeSort feedbackLe) ≠ [] := by
      intro h0
      have hlen := (List.mergeSort_perm
        (s.feedback.filter fun f => f.submitted_at.isSome) feedbackLe).length_eq
      rw [h0] at hlen
      exact hfqs_ne (List.length_eq_zero.mp hlen.symm)
    obtain ⟨m, hm⟩ := Option.isSome_iff_exists.mp (List.getLast?_isSome.mpr hms_ne)
    have hsorted := List.sorted_mergeSort feedbackLe_trans feedbackLe_total
      (s.feedback.filter fun f => f.submitted_at.isSome)
    have hmax := getLast_is_max hsorted hm
    have hmmem : m ∈ s.feedback.filter fun f => f.submitted_at.isSome := by
      have hsplit := List.dropLast_append_getLast? m hm
      have hmem :
          m ∈ (s.feedback.filter fun f => f.submitted_at.isSome).mergeSort feedbackLe := by
        rw [← hsplit]
        simp
      exact (List.mergeSort_perm _ feedbackLe).mem_iff.mp hmem
    obtain ⟨hmfb, hmsome⟩ := List.mem_filter.mp hmmem
    obtain ⟨t, ht⟩ := Option.isSome_iff_exists.mp hmsome
    refine ⟨m, t, hmfb, ht, ?_, gac_with_feedback s m hm⟩
    intro g hg u hu
    have hgfqs : g ∈ s.feedback.filter fun f => f.submitted_at.isSome := by
      simp [List.mem_filter, hg, hu]
    have hle := hmax g ((List.mergeSort_perm _ feedbackLe).mem_iff.mpr hgfqs)
    simp only [feedbackLe, ht, hu, Option.getD_some, decide_eq_true_eq] at hle
    exact hle

/-- Sample feedback submitted earlier. -/
def sample8A : Feedback := ⟨some 5, some true, some "good", none, none⟩

/-- Sample feedback submitted later. -/
def sample8B : Feedback := ⟨some 9, some false, some "bad", some "extra", some ["x"]⟩

/-- Sample signal with one unsubmitted and two submitted feedback
entries. -/
def sample8S : Signal := ⟨[sample8A, ⟨none, some true, none, none, none⟩, sample8B]⟩

/-- Witness for claim 8 at a concrete signal with submitted feedback. -/
theorem claim8_witness :
    ∃ lf t, lf ∈ sample8S.feedback ∧ lf.submitted_at = some t ∧
      (∀ g ∈ sample8S.feedback, ∀ u, g.submitted_at = some u → u ≤ t) ∧
      get_additional_context sample8S =
        [("feedback_received", .bool true),
         ("feedback_is_satisfied", optVal PyValue.bool lf.is_satisfied),
         ("feedback_text", optVal PyValue.str lf.text),
         ("feedback_text_extra", optVal PyValue.str lf.text_extra),
         ("feedback_text_list", optVal PyValue.strList lf.text_list)] :=
  (claim8_reopened_context_latest_feedback sample8S).2 (by decide)

/-- Claim C9: the reopened-notification context always has exactly the
five keys feedback_received, feedback_is_satisfied, feedback_text,
feedback_text_extra, feedback_text_list; feedback_received is a boolean
that is true exactly when some feedback entry has a non-null submitted_at;
and when it is false the other four values are all null. -/
theorem claim9_reopened_context_keys (s : Signal) :
    (get_additional_context s).map Prod.fst =
      ["feedback_received", "feedback_is_satisfied", "feedback_text",
       "feedback_text_extra", "feedback_text_list"] ∧
    ∃ b : Bool,
      List.lookup "feedback_received" (get_additional_context s) = some (.bool b) ∧
      (b = true ↔ ∃ f ∈ s.feedback, f.submitted_at ≠ none) ∧
      (b = false →
        List.lookup "feedback_is_satisfied" (get_additional_context s) = some .null ∧
        List.lookup "feedback_text" (get_additional_context s) = some .null ∧
        List.lookup "feedback_text_extra" (get_additional_context s) = some .null ∧
        List.lookup "feedback_text_list" (get_additional_context s) = some .null) := by
  refine ⟨by simp [get_additional_context], ?_⟩
  refine ⟨!(s.feedback.filter fun f => f.submitted_at.isSome).isEmpty, ?_, ?_, ?_⟩
  · simp [get_additional_context, List.lookup]
  · rw [Bool.not_eq_eq_eq_not]
    simp only [Bool.not_true, List.isEmpty_eq_false, Ne, List.filter_eq_nil_iff]
    push_neg
    simp [Option.isSome_iff_ne_none]
  · intro hb
    rw [Bool.not_eq_eq_eq_not] at hb
    simp only [Bool.not_false, List.isEmpty_iff] at hb
    rw [gac_no_feedback s hb]
    refine ⟨?_, ?_, ?_, ?_⟩ <;> simp [List.lookup]

/-- Witness for claim 9 at a concrete signal without feedback. -/
theorem claim9_witness :
    (get_additional_context ⟨[]⟩).map Prod.fst =
      ["feedback_received", "feedback_is_satisfied", "feedback_text",
       "feedback_text_extra", "feedback_text_list"] :=
  (claim9_reopened_context_keys ⟨[]⟩).1

end Signals

namespace Logs

/-- Claim C10: get_configuration maps every listed app name to a logger
entry with exactly the given level and the handler list colorize only,
whatever the Azure env flag and connection string are, and the module
level BASE_LOGGING object is unchanged after the call. -/
theorem claim10_get_configuration_app_loggers (base : LogConfig)
    (azureEnv cs : Option String) (apps : List String) (level : LogLevel) :
    (get_configuration base azureEnv cs apps level).2 = base ∧
    ∀ app ∈ apps,
      List.lookup app (get_configuration base azureEnv cs apps level).1.loggers =
        some { level := some level, handlers := ["colorize"] } := by
  refine ⟨rfl, ?_⟩
  intro app hmem
  show List.lookup app
      (apps.foldl (fun lgs a => assocSet lgs a
        { level := some level, handlers := ["colorize"] })
        (if azureFlagEnabled azureEnv then
          (add_azure cs (deepcopy base), ["colorize", "azure"])
        else (deepcopy base, ["colorize"])).1.loggers) = _
  exact lookup_foldl_assocSet_mem apps _ _ app hmem

/-- Sample base logging config with a colorless handler and the django
logger. -/
def sample10Base : LogConfig :=
  ⟨[("colorless", ⟨"logging.StreamHandler", none⟩)], [("django", ⟨none, ["colorless"]⟩)]⟩

/-- Witness for claim 10 with the azure flag enabled: the listed app still
gets level INFO and only the colorize handler, and the base is returned
unchanged. -/
theorem claim10_witness :
    List.lookup "signals"
      (get_configuration sample10Base (some "true") (some "cs") ["signals"]
        (.str "INFO")).1.loggers
      = some ⟨some (.str "INFO"), ["colorize"]⟩ ∧
    (get_configuration sample10Base (some "true") (some "cs") ["signals"]
        (.str "INFO")).2 = sample10Base :=
  ⟨(claim10_get_configuration_app_loggers sample10Base (some "true") (some "cs")
      ["signals"] (.str "INFO")).2 "signals" (by decide),
   (claim10_get_configuration_app_loggers sample10Base (some "true") (some "cs")
      ["signals"] (.str "INFO")).1⟩

end Logs
